import Mathlib

/-!
Shallow embedding of the pyrogram convenience-layer fragment:
`translate_message_text` / `translate_text`
(src/pyrogram/methods/messages/translate_text.py),
`edit_chat_invite_link`
(src/pyrogram/methods/invite_links/edit_chat_invite_link.py),
and the `MessageOrigin` variant family
(src/pyrogram/types/message_origin/__init__.py).

External collaborators (`resolve_peer`, `invoke`, `parse_text_entities`,
the `_parse` factories of `TranslatedText` and `ChatInviteLink`) are
modelled as oracle fields of a `Client` record, each returning
`Except ε _` so that raised exceptions are explicit.  The adapters return
their result paired with a trace of boundary events so that call counts
and ordering of `resolve_peer`/`invoke` are observable.
-/

namespace Pyrogram

/-- Caller-facing chat identifier: `chat_id: Union[int, str]`. -/
inductive ChatId where
  | int (n : Int)
  | str (s : String)
deriving DecidableEq, Repr

/-- Resolved protocol-level peer handle (opaque to this layer). -/
structure Peer where
  id : Int
deriving DecidableEq, Repr

/-- Formatting entity attached to a text (abstract fields suffice). -/
structure MessageEntity where
  offset : Nat
  length : Nat
deriving DecidableEq, Repr

/-- `message_ids: Union[int, list[int]]`. -/
inductive IntOrList where
  | int (n : Int)
  | list (l : List Int)
deriving DecidableEq, Repr

/-- `ids = [message_ids] if not isinstance(message_ids, list) else message_ids`
    (src/pyrogram/methods/messages/translate_text.py line 56). -/
def normalizeMessageIds : IntOrList → List Int
  | .int n => [n]
  | .list l => l

/-- Parse mode selector (`enums.ParseMode`), opaque here. -/
inductive ParseMode where
  | default
  | markdown
  | html
  | disabled
deriving DecidableEq, Repr

namespace Raw

/-- `raw.types.TextWithEntities`: one text payload with its entity list.
    The `entities` field is modelled as an `Option` so that "null entities
    on the wire" is representable and provably never produced. -/
structure TextWithEntities where
  text : String
  entities : Option (List MessageEntity)
deriving DecidableEq, Repr

/-- `raw.functions.messages.TranslateText`: either (`peer`, `id`) or `text`
    is set, mirroring the optional flag fields of the schema. -/
structure TranslateText where
  to_lang : String
  peer : Option Peer := none
  id : Option (List Int) := none
  text : Option (List TextWithEntities) := none
deriving DecidableEq, Repr

/-- `raw.types.messages.TranslateResult`: the raw response, a vector of
    translation result payloads. -/
structure TranslateResult where
  result : List TextWithEntities
deriving DecidableEq, Repr

/-- `raw.types.User` payload inside an auxiliary users table. -/
structure User where
  id : Int
  first_name : String := ""
deriving DecidableEq, Repr

/-- The raw invite payload inside `messages.ExportedChatInvite`. -/
structure ExportedInvite where
  link : String
deriving DecidableEq, Repr

/-- `raw.functions.messages.EditExportedChatInvite`: optional flag fields
    are `Option`, `none` meaning the field is omitted on the wire. -/
structure EditExportedChatInvite where
  peer : Peer
  link : String
  expire_date : Option Int := none
  usage_limit : Option Int := none
  title : Option String := none
  request_needed : Option Bool := none
deriving DecidableEq, Repr

/-- `raw.types.messages.ExportedChatInvite`: the response carrying the
    edited invite plus an auxiliary users table. -/
structure ExportedChatInvite where
  invite : ExportedInvite
  users : List User
deriving DecidableEq, Repr

end Raw

/-- Domain type `types.TranslatedText` (constructed only by its `_parse`
    factory, which this layer treats as an external collaborator). -/
structure TranslatedText where
  text : String
  entities : Option (List MessageEntity) := none
deriving DecidableEq, Repr

/-- Domain type `types.ChatInviteLink` (constructed only by `_parse`). -/
structure ChatInviteLink where
  invite_link : String
  member_limit : Option Int := none
deriving DecidableEq, Repr

/-- Return shape of the translation calls:
    `Union[types.TranslatedText, list[types.TranslatedText]]`. -/
inductive SingleOrList (α : Type) where
  | single (a : α)
  | list (l : List α)
deriving DecidableEq, Repr

/-- Caller-side value for `expire_date: datetime = None`.  Following the
    three-state reading of the optional field (absent / explicit clear /
    explicit value): `omitted` is the default `None` (leave unchanged),
    `clear` is the caller-supplied sentinel asking for no expiration, and
    `time t` is a concrete point in time. -/
inductive ExpireArg where
  | omitted
  | clear
  | time (t : Int)
deriving DecidableEq, Repr

/-- Modelled from the spec: `utils.datetime_to_timestamp` is not under
    src/; per the external-interface contract it converts an optional
    point-in-time value to the wire's integer timestamp representation,
    with a defined sentinel (`0`) for "no expiration", while an omitted
    value maps to the omitted wire field (`none`). -/
def datetime_to_timestamp : ExpireArg → Option Int
  | .omitted => none
  | .clear => some 0
  | .time t => some t

/-- Python truthiness fallback `entities or []`: the default is used when
    the value is `None` or the empty list
    (src/pyrogram/methods/messages/translate_text.py line 112). -/
def pyOrElse (entities : Option (List MessageEntity)) (d : List MessageEntity) :
    List MessageEntity :=
  match entities with
  | none => d
  | some l => if l.isEmpty then d else l

/-- `users = {i.id: i for i in r.users}`
    (src/pyrogram/methods/invite_links/edit_chat_invite_link.py line 89):
    a Python dict comprehension keyed by `i.id`; a later entry with the
    same id overwrites an earlier one, hence the lookup returns the last
    user in list order bearing the requested id. -/
def usersDict : List Raw.User → Int → Option Raw.User
  | [], _ => none
  | u :: us, k =>
    match usersDict us k with
    | some v => some v
    | none => if k = u.id then some u else none

/-- The raw request construction of `edit_chat_invite_link`
    (src/pyrogram/methods/invite_links/edit_chat_invite_link.py
    lines 79-87). -/
def buildEditExportedChatInvite (peer : Peer) (invite_link : String)
    (name : Option String) (expire_date : ExpireArg)
    (member_limit : Option Int) (creates_join_request : Option Bool) :
    Raw.EditExportedChatInvite :=
  { peer := peer
    link := invite_link
    expire_date := datetime_to_timestamp expire_date
    usage_limit := member_limit
    title := name
    request_needed := creates_join_request }

/-- The raw request construction of `translate_message_text`
    (src/pyrogram/methods/messages/translate_text.py lines 59-61). -/
def buildTranslateByIds (to_lang : String) (peer : Peer) (ids : List Int) :
    Raw.TranslateText :=
  { to_lang := to_lang, peer := some peer, id := some ids }

/-- The raw request construction of `translate_text`
    (src/pyrogram/methods/messages/translate_text.py lines 109-116): one
    `TextWithEntities` whose entity list is `entities or []`. -/
def buildTranslateByText (to_lang : String) (message : String)
    (parsedEntities : Option (List MessageEntity)) : Raw.TranslateText :=
  { to_lang := to_lang,
    text := some [{ text := message, entities := some (pyOrElse parsedEntities []) }] }

/-- One raw request handed to the transport (`self.invoke(...)`). -/
inductive RawCall where
  | translateText (q : Raw.TranslateText)
  | editExportedChatInvite (q : Raw.EditExportedChatInvite)
deriving DecidableEq, Repr

/-- Boundary events an adapter call performs, in order. -/
inductive Event where
  | resolvedPeer (c : ChatId)
  | invoked (q : RawCall)
deriving DecidableEq, Repr

/-- The raw calls sent to the transport within a trace. -/
def sentRawCalls (tr : List Event) : List RawCall :=
  tr.filterMap fun e =>
    match e with
    | .invoked q => some q
    | _ => none

/-- The peer resolutions performed within a trace. -/
def resolvedPeers (tr : List Event) : List ChatId :=
  tr.filterMap fun e =>
    match e with
    | .resolvedPeer c => some c
    | _ => none

/-- The external collaborators of this layer, as oracles: `resolve_peer`,
    the transport `invoke` (typed by the request, as the schema types it),
    `utils.parse_text_entities`, and the `_parse` factories.  Each returns
    `Except ε _`: an `.error` models a raised exception. -/
structure Client (ε : Type) where
  resolve_peer : ChatId → Except ε Peer
  invoke_translate_text : Raw.TranslateText → Except ε Raw.TranslateResult
  invoke_edit_exported_chat_invite :
    Raw.EditExportedChatInvite → Except ε Raw.ExportedChatInvite
  parse_text_entities : String → Option ParseMode →
    Option (List MessageEntity) → Except ε (String × Option (List MessageEntity))
  translated_text_of : Raw.TextWithEntities → Except ε TranslatedText
  chat_invite_link_of : Raw.ExportedInvite → (Int → Option Raw.User) →
    Except ε ChatInviteLink

/-- Left-to-right evaluation of `[parse(i) for i in r.result]`: the first
    raised exception aborts the whole comprehension. -/
def exceptMapList (parse : Raw.TextWithEntities → Except ε TranslatedText) :
    List Raw.TextWithEntities → Except ε (List TranslatedText)
  | [] => .ok []
  | x :: xs =>
    match parse x with
    | .error e => .error e
    | .ok t =>
      match exceptMapList parse xs with
      | .error e => .error e
      | .ok ts => .ok (t :: ts)

/-- The result normalization shared by both translation calls
    (src/pyrogram/methods/messages/translate_text.py lines 64-68 and
    118-122): if exactly one result came back, parse and return it alone;
    otherwise parse and return the ordered list. -/
def parseTranslateResults (parse : Raw.TextWithEntities → Except ε TranslatedText) :
    List Raw.TextWithEntities → Except ε (SingleOrList TranslatedText)
  | [x] =>
    match parse x with
    | .error e => .error e
    | .ok t => .ok (.single t)
  | xs =>
    match exceptMapList parse xs with
    | .error e => .error e
    | .ok ts => .ok (.list ts)

/-- `TranslateText.translate_message_text`
    (src/pyrogram/methods/messages/translate_text.py lines 26-68):
    normalize the message ids, resolve the peer, send one raw
    `messages.TranslateText` request, then normalize the result
    cardinality.  Returns the result paired with the trace of boundary
    events. -/
def translate_message_text (c : Client ε) (to_language_code : String)
    (chat_id : ChatId) (message_ids : IntOrList) :
    Except ε (SingleOrList TranslatedText) × List Event :=
  let ids := normalizeMessageIds message_ids
  match c.resolve_peer chat_id with
  | .error e => (.error e, [.resolvedPeer chat_id])
  | .ok peer =>
    let req := buildTranslateByIds to_language_code peer ids
    match c.invoke_translate_text req with
    | .error e => (.error e, [.resolvedPeer chat_id, .invoked (.translateText req)])
    | .ok r =>
      (parseTranslateResults c.translated_text_of r.result,
        [.resolvedPeer chat_id, .invoked (.translateText req)])

/-- `TranslateText.translate_text`
    (src/pyrogram/methods/messages/translate_text.py lines 70-122):
    canonicalize the text and entities, send one raw
    `messages.TranslateText` request carrying a single
    `TextWithEntities` whose entity list is `entities or []`, then
    normalize the result cardinality. -/
def translate_text (c : Client ε) (to_language_code : String) (text : String)
    (parse_mode : Option ParseMode := none)
    (entities : Option (List MessageEntity) := none) :
    Except ε (SingleOrList TranslatedText) × List Event :=
  match c.parse_text_entities text parse_mode entities with
  | .error e => (.error e, [])
  | .ok (message, parsedEntities) =>
    let req := buildTranslateByText to_language_code message parsedEntities
    match c.invoke_translate_text req with
    | .error e => (.error e, [.invoked (.translateText req)])
    | .ok r =>
      (parseTranslateResults c.translated_text_of r.result,
        [.invoked (.translateText req)])

/-- `EditChatInviteLink.edit_chat_invite_link`
    (src/pyrogram/methods/invite_links/edit_chat_invite_link.py
    lines 27-91): resolve the peer, send one raw
    `messages.EditExportedChatInvite` request, extract the users table
    keyed by id, and parse the invite payload with that table. -/
def edit_chat_invite_link (c : Client ε) (chat_id : ChatId)
    (invite_link : String) (name : Option String := none)
    (expire_date : ExpireArg := .omitted) (member_limit : Option Int := none)
    (creates_join_request : Option Bool := none) :
    Except ε ChatInviteLink × List Event :=
  match c.resolve_peer chat_id with
  | .error e => (.error e, [.resolvedPeer chat_id])
  | .ok peer =>
    let req := buildEditExportedChatInvite peer invite_link name expire_date
      member_limit creates_join_request
    match c.invoke_edit_exported_chat_invite req with
    | .error e =>
      (.error e, [.resolvedPeer chat_id, .invoked (.editExportedChatInvite req)])
    | .ok r =>
      (c.chat_invite_link_of r.invite (usersDict r.users),
        [.resolvedPeer chat_id, .invoked (.editExportedChatInvite req)])

/-- The raw payload shapes a `MessageOrigin`-family parse may receive: the
    discriminant is which concrete raw type was received, not a separate
    tag field.  `unknownTag` stands for any raw type with no registered
    variant (schema drift). -/
inductive RawOriginPayload where
  | channelOrigin (chatId : Int) (messageId : Int)
  | chatOrigin (senderId : Int)
  | hiddenUserOrigin (senderName : String)
  | userOrigin (senderId : Int)
  | importOrigin (senderName : String)
  | unknownTag (tag : String)
deriving DecidableEq, Repr

/-- The closed `MessageOrigin` variant family
    {Channel, Chat, HiddenUser, User, Import}
    (src/pyrogram/types/message_origin/__init__.py). -/
inductive MessageOrigin where
  | channel (chatId : Int) (messageId : Int)
  | chat (senderId : Int)
  | hiddenUser (senderName : String)
  | user (senderId : Int)
  | importInfo (senderName : String)
deriving DecidableEq, Repr

/-- Modelled from the spec: the `MessageOrigin._parse` dispatch body is not
    under src/ (only the family's re-exports are).  Per the Variant Parser
    contract it inspects the payload's concrete raw type, selects exactly
    one variant constructor from the closed set, and fails loudly on a
    payload whose concrete type has no registered variant. -/
def MessageOrigin.parseOrigin : RawOriginPayload → Except String MessageOrigin
  | .channelOrigin c m => .ok (.channel c m)
  | .chatOrigin s => .ok (.chat s)
  | .hiddenUserOrigin n => .ok (.hiddenUser n)
  | .userOrigin s => .ok (.user s)
  | .importOrigin n => .ok (.importInfo n)
  | .unknownTag tag => .error ("Unknown message origin type " ++ tag)

/-- Concrete collaborator instance whose transport returns the given
    translation results and users table; used to exercise the adapters on
    closed inputs. -/
def testClient (tr : List Raw.TextWithEntities) (us : List Raw.User) :
    Client String :=
  { resolve_peer := fun _ => .ok { id := 7 }
    invoke_translate_text := fun _ => .ok { result := tr }
    invoke_edit_exported_chat_invite := fun _ => .ok { invite := { link := "LINK2" }, users := us }
    parse_text_entities := fun s _ e => .ok (s, e)
    translated_text_of := fun x => .ok { text := x.text, entities := x.entities }
    chat_invite_link_of := fun inv _ => .ok { invite_link := inv.link } }

/-- Concrete collaborator instance whose peer resolution raises. -/
def failClient : Client String :=
  { resolve_peer := fun _ => .error "PEER_ID_INVALID"
    invoke_translate_text := fun _ => .error "unreachable"
    invoke_edit_exported_chat_invite := fun _ => .error "unreachable"
    parse_text_entities := fun s _ e => .ok (s, e)
    translated_text_of := fun _ => .error "unreachable"
    chat_invite_link_of := fun _ _ => .error "unreachable" }

/-- Concrete collaborator instance whose `ChatInviteLink._parse` oracle
    reads the user stored under id 1 in the auxiliary table, exposing
    which user the adapter's table maps id 1 to. -/
def probeClient (us : List Raw.User) : Client String :=
  { resolve_peer := fun _ => .ok { id := 7 }
    invoke_translate_text := fun _ => .ok { result := [] }
    invoke_edit_exported_chat_invite := fun _ => .ok { invite := { link := "L" }, users := us }
    parse_text_entities := fun s _ e => .ok (s, e)
    translated_text_of := fun x => .ok { text := x.text, entities := x.entities }
    chat_invite_link_of := fun _ m =>
      .ok { invite_link := (m 1).elim "absent" Raw.User.first_name } }

theorem exceptMapList_ok (parse : Raw.TextWithEntities → Except ε TranslatedText)
    (f : Raw.TextWithEntities → TranslatedText) :
    ∀ xs : List Raw.TextWithEntities, (∀ x ∈ xs, parse x = .ok (f x)) →
      exceptMapList parse xs = .ok (xs.map f)
  | [], _ => rfl
  | x :: xs, h => by
    have hx := h x (List.mem_cons_self x xs)
    have hs := exceptMapList_ok parse f xs fun y hy => h y (List.mem_cons_of_mem x hy)
    simp [exceptMapList, hx, hs]

theorem usersDict_not_mem {us : List Raw.User} {k : Int}
    (h : ∀ u ∈ us, k ≠ u.id) : usersDict us k = none := by
  induction us with
  | nil => rfl
  | cons u us ih =>
    have h1 : k ≠ u.id := h u (by simp)
    have h2 := ih fun v hv => h v (by simp [hv])
    simp [usersDict, h2, h1]

theorem usersDict_mem_of_nodup {us : List Raw.User}
    (hnd : (us.map Raw.User.id).Nodup) :
    ∀ u ∈ us, usersDict us u.id = some u := by
  induction us with
  | nil => intro u hu; cases hu
  | cons v vs ih =>
    intro u hu
    have hnd' : v.id ∉ vs.map Raw.User.id ∧ (vs.map Raw.User.id).Nodup :=
      List.nodup_cons.mp (by simpa using hnd)
    rcases List.mem_cons.mp hu with rfl | hu'
    · have hv : ∀ w ∈ vs, u.id ≠ w.id := by
        intro w hw hEq
        exact hnd'.1 (hEq ▸ List.mem_map_of_mem Raw.User.id hw)
      simp [usersDict, usersDict_not_mem hv]
    · have hvs := ih hnd'.2 u hu'
      simp [usersDict, hvs]

/-- C3: supplying the caller-side "clear" sentinel for the expiry field
    yields a wire request whose `expire_date` carries the explicit
    "no expiration" representation (`some 0`), distinguishable from the
    representation produced by omitting the field (`none`, leave
    unchanged). -/
theorem edit_invite_expire_clear_vs_omitted (p : Peer) (ilink : String)
    (name : Option String) (ml : Option Int) (cjr : Option Bool) :
    (buildEditExportedChatInvite p ilink name .clear ml cjr).expire_date = some 0 ∧
    (buildEditExportedChatInvite p ilink name .omitted ml cjr).expire_date = none ∧
    (buildEditExportedChatInvite p ilink name .clear ml cjr).expire_date ≠
      (buildEditExportedChatInvite p ilink name .omitted ml cjr).expire_date := by
  exact ⟨rfl, rfl, by simp [buildEditExportedChatInvite, datetime_to_timestamp]⟩

/-- C4: the adapter forwards `member_limit` into the wire request's
    `usage_limit` verbatim, with no local range validation; in particular
    the explicit clear value `0` maps to `some 0` ("unlimited"),
    distinguishable from omission (`none`, no change). -/
theorem edit_invite_member_limit_forwarded (p : Peer) (ilink : String)
    (name : Option String) (ed : ExpireArg) (ml : Option Int)
    (cjr : Option Bool) :
    (buildEditExportedChatInvite p ilink name ed ml cjr).usage_limit = ml ∧
    (buildEditExportedChatInvite p ilink name ed (some 0) cjr).usage_limit = some 0 ∧
    (buildEditExportedChatInvite p ilink name ed (some 0) cjr).usage_limit ≠
      (buildEditExportedChatInvite p ilink name ed none cjr).usage_limit := by
  exact ⟨rfl, rfl, by simp [buildEditExportedChatInvite]⟩

/-- C5: the `MessageOrigin` variant parser maps each registered raw
    payload shape to exactly the matching concrete variant of the closed
    set {Channel, Chat, HiddenUser, User, Import}, and a payload whose
    concrete type has no registered variant yields an error, never a
    variant or default object. -/
theorem message_origin_parse_dispatch :
    (∀ c m, MessageOrigin.parseOrigin (.channelOrigin c m) = .ok (.channel c m)) ∧
    (∀ s, MessageOrigin.parseOrigin (.chatOrigin s) = .ok (.chat s)) ∧
    (∀ n, MessageOrigin.parseOrigin (.hiddenUserOrigin n) = .ok (.hiddenUser n)) ∧
    (∀ s, MessageOrigin.parseOrigin (.userOrigin s) = .ok (.user s)) ∧
    (∀ n, MessageOrigin.parseOrigin (.importOrigin n) = .ok (.importInfo n)) ∧
    (∀ tag, MessageOrigin.parseOrigin (.unknownTag tag) =
      .error ("Unknown message origin type " ++ tag)) ∧
    (∀ tag o, MessageOrigin.parseOrigin (.unknownTag tag) ≠ .ok o) := by
  refine ⟨fun _ _ => rfl, fun _ => rfl, fun _ => rfl, fun _ => rfl,
    fun _ => rfl, fun _ => rfl, ?_⟩
  intro tag o h
  simp [MessageOrigin.parseOrigin] at h

/-- C1: when the raw response of either translation call carries exactly
    one result, the call returns the single typed object built by the
    `TranslatedText._parse` factory on that result, not a one-element
    sequence. -/
theorem translate_single_result_unwrapped {ε : Type} (c : Client ε)
    (lang txt : String) (cid : ChatId) (mids : IntOrList)
    (pm : Option ParseMode) (ents : Option (List MessageEntity)) (p : Peer)
    (msg : String) (pents : Option (List MessageEntity))
    (r r' : Raw.TranslateResult) (x x' : Raw.TextWithEntities)
    (t t' : TranslatedText)
    (hres : c.resolve_peer cid = .ok p)
    (hinv : c.invoke_translate_text
      (buildTranslateByIds lang p (normalizeMessageIds mids)) = .ok r)
    (hr : r.result = [x])
    (hx : c.translated_text_of x = .ok t)
    (hpe : c.parse_text_entities txt pm ents = .ok (msg, pents))
    (hinv2 : c.invoke_translate_text (buildTranslateByText lang msg pents) = .ok r')
    (hr2 : r'.result = [x'])
    (hx2 : c.translated_text_of x' = .ok t') :
    (translate_message_text c lang cid mids).1 = .ok (.single t) ∧
    (translate_text c lang txt pm ents).1 = .ok (.single t') ∧
    ∀ l : List TranslatedText,
      (SingleOrList.single t : SingleOrList TranslatedText) ≠ .list l := by
  refine ⟨?_, ?_, fun l h => by cases h⟩
  · simp [translate_message_text, hres, hinv, hr, parseTranslateResults, hx]
  · simp [translate_text, hpe, hinv2, hr2, parseTranslateResults, hx2]

/-- C1 witness: on a concrete client whose transport returns exactly one
    result, both translation calls return a single typed object. -/
theorem translate_single_result_unwrapped_witness :
    (translate_message_text (testClient [{ text := "hola", entities := some [] }] [])
      "es" (.int 1) (.int 5)).1 =
      .ok (.single { text := "hola", entities := some [] }) ∧
    (translate_text (testClient [{ text := "hola", entities := some [] }] [])
      "es" "hello" none none).1 =
      .ok (.single { text := "hola", entities := some [] }) ∧
    ∀ l : List TranslatedText,
      (SingleOrList.single { text := "hola", entities := some [] } :
        SingleOrList TranslatedText) ≠ .list l :=
  translate_single_result_unwrapped
    (testClient [{ text := "hola", entities := some [] }] [])
    "es" "hello" (.int 1) (.int 5) none none { id := 7 } "hello" none
    { result := [{ text := "hola", entities := some [] }] }
    { result := [{ text := "hola", entities := some [] }] }
    { text := "hola", entities := some [] } { text := "hola", entities := some [] }
    { text := "hola", entities := some [] } { text := "hola", entities := some [] }
    rfl rfl rfl rfl rfl rfl rfl rfl

/-- C2: when the raw response carries `N ≥ 2` results,
    `translate_message_text` returns the ordered list whose i-th element
    is the parse of the i-th raw result; with an input list of the same
    length the output length matches the input length, and the request
    carries the input ids in order. -/
theorem translate_many_results_ordered {ε : Type} (c : Client ε)
    (lang : String) (cid : ChatId) (ids : List Int) (p : Peer)
    (r : Raw.TranslateResult) (rs : List Raw.TextWithEntities)
    (f : Raw.TextWithEntities → TranslatedText)
    (hres : c.resolve_peer cid = .ok p)
    (hinv : c.invoke_translate_text (buildTranslateByIds lang p ids) = .ok r)
    (hr : r.result = rs)
    (hlen : 2 ≤ rs.length)
    (hN : rs.length = ids.length)
    (hparse : ∀ x ∈ rs, c.translated_text_of x = .ok (f x)) :
    (translate_message_text c lang cid (.list ids)).1 = .ok (.list (rs.map f)) ∧
    (rs.map f).length = ids.length ∧
    (∀ i : Nat, (rs.map f)[i]? = Option.map f rs[i]?) ∧
    sentRawCalls ((translate_message_text c lang cid (.list ids)).2) =
      [.translateText (buildTranslateByIds lang p ids)] := by
  have hmap := exceptMapList_ok c.translated_text_of f rs hparse
  refine ⟨?_, by simp [hN], fun i => by simp, ?_⟩
  · match rs, hlen, hmap with
    | a :: b :: tl, _, hmap =>
      simp [translate_message_text, normalizeMessageIds, hres, hinv, hr,
        parseTranslateResults, hmap]
  · cases h : c.invoke_translate_text (buildTranslateByIds lang p ids) with
    | error e =>
      simp [translate_message_text, normalizeMessageIds, hres, h, sentRawCalls]
    | ok r2 =>
      simp [translate_message_text, normalizeMessageIds, hres, h, sentRawCalls]

/-- C2 witness: a concrete two-result response yields a two-element
    ordered list whose elements are the parses of the raw results in
    order. -/
theorem translate_many_results_ordered_witness :
    (translate_message_text
      (testClient [{ text := "a", entities := none }, { text := "b", entities := none }] [])
      "en" (.int 1) (.list [10, 20])).1 =
      .ok (.list [{ text := "a", entities := none }, { text := "b", entities := none }]) ∧
    ([({ text := "a", entities := none } : Raw.TextWithEntities),
      { text := "b", entities := none }].map
        (fun x => ({ text := x.text, entities := x.entities } : TranslatedText))).length =
      ([10, 20] : List Int).length ∧
    (∀ i : Nat,
      ([({ text := "a", entities := none } : Raw.TextWithEntities),
        { text := "b", entities := none }].map
          (fun x => ({ text := x.text, entities := x.entities } : TranslatedText)))[i]? =
      Option.map (fun x => ({ text := x.text, entities := x.entities } : TranslatedText))
        [({ text := "a", entities := none } : Raw.TextWithEntities),
          { text := "b", entities := none }][i]?) ∧
    sentRawCalls ((translate_message_text
      (testClient [{ text := "a", entities := none }, { text := "b", entities := none }] [])
      "en" (.int 1) (.list [10, 20])).2) =
      [.translateText (buildTranslateByIds "en" { id := 7 } [10, 20])] := by
  have h := translate_many_results_ordered
    (testClient [{ text := "a", entities := none }, { text := "b", entities := none }] [])
    "en" (.int 1) [10, 20] { id := 7 }
    { result := [{ text := "a", entities := none }, { text := "b", entities := none }] }
    [{ text := "a", entities := none }, { text := "b", entities := none }]
    (fun x => { text := x.text, entities := x.entities })
    rfl rfl rfl (by decide) rfl ?_
  · simpa using h
  · intro x hx
    rcases List.mem_cons.mp hx with rfl | hx'
    · rfl
    · rcases List.mem_singleton.mp hx' with rfl
      rfl

/-- C6: `translate_message_text` issues exactly one raw `TranslateText`
    request carrying the full identifier set: a single integer id becomes
    the singleton list, and a list of ids is forwarded unchanged, in
    order. -/
theorem translate_message_text_one_request {ε : Type} (c : Client ε)
    (lang : String) (cid : ChatId) (mids : IntOrList) (p : Peer)
    (hres : c.resolve_peer cid = .ok p) :
    sentRawCalls ((translate_message_text c lang cid mids).2) =
      [.translateText (buildTranslateByIds lang p (normalizeMessageIds mids))] ∧
    (∀ n : Int, normalizeMessageIds (.int n) = [n]) ∧
    (∀ l : List Int, normalizeMessageIds (.list l) = l) := by
  refine ⟨?_, fun _ => rfl, fun _ => rfl⟩
  cases h : c.invoke_translate_text
      (buildTranslateByIds lang p (normalizeMessageIds mids)) with
  | error e => simp [translate_message_text, hres, h, sentRawCalls]
  | ok r => simp [translate_message_text, hres, h, sentRawCalls]

/-- C6 witness: on a concrete client, translating message id 5 sends one
    request whose id field is the singleton list. -/
theorem translate_message_text_one_request_witness :
    sentRawCalls ((translate_message_text (testClient [] []) "en" (.int 1)
      (.int 5)).2) =
      [.translateText (buildTranslateByIds "en" { id := 7 }
        (normalizeMessageIds (.int 5)))] ∧
    (∀ n : Int, normalizeMessageIds (.int n) = [n]) ∧
    (∀ l : List Int, normalizeMessageIds (.list l) = l) :=
  translate_message_text_one_request (testClient [] []) "en" (.int 1) (.int 5)
    { id := 7 } rfl

/-- C7 counterexample: with two users in the response bearing the same id,
    the dict comprehension keeps the later user, so the mapping does not
    send the earlier user's id to that user; probing the mapping that the
    adapter hands to `ChatInviteLink._parse` observes the later user. -/
theorem edit_invite_users_mapping_counterexample :
    (({ id := 1, first_name := "a" } : Raw.User) ∈
      [({ id := 1, first_name := "a" } : Raw.User), { id := 1, first_name := "b" }]) ∧
    usersDict [{ id := 1, first_name := "a" }, { id := 1, first_name := "b" }] 1 ≠
      some { id := 1, first_name := "a" } ∧
    (edit_chat_invite_link
      (probeClient [{ id := 1, first_name := "a" }, { id := 1, first_name := "b" }])
      (.int 1) "L").1 = .ok { invite_link := "b" } := by
  exact ⟨by simp, by decide, rfl⟩

/-- C7 (amended): `edit_chat_invite_link` extracts the users table as a
    mapping keyed by user id in which each id maps to the last user in the
    response's users list bearing it; when the listed ids are pairwise
    distinct the mapping sends `u.id` to `u` for every listed user `u`,
    and exactly that mapping is passed into `ChatInviteLink._parse`
    alongside the response's invite payload. -/
theorem edit_invite_users_mapping {ε : Type} (c : Client ε) (cid : ChatId)
    (ilink : String) (name : Option String) (ed : ExpireArg) (ml : Option Int)
    (cjr : Option Bool) (p : Peer) (r : Raw.ExportedChatInvite)
    (hres : c.resolve_peer cid = .ok p)
    (hinv : c.invoke_edit_exported_chat_invite
      (buildEditExportedChatInvite p ilink name ed ml cjr) = .ok r)
    (hnd : (r.users.map Raw.User.id).Nodup) :
    (∀ u ∈ r.users, usersDict r.users u.id = some u) ∧
    (edit_chat_invite_link c cid ilink name ed ml cjr).1 =
      c.chat_invite_link_of r.invite (usersDict r.users) := by
  refine ⟨usersDict_mem_of_nodup hnd, ?_⟩
  simp [edit_chat_invite_link, hres, hinv]

/-- C7 witness: with two distinct-id users in the response, the table maps
    each listed user's id to that user and is the table handed to the
    parse factory. -/
theorem edit_invite_users_mapping_witness :
    (∀ u ∈ [({ id := 5, first_name := "u" } : Raw.User), { id := 6, first_name := "v" }],
      usersDict [({ id := 5, first_name := "u" } : Raw.User),
        { id := 6, first_name := "v" }] u.id = some u) ∧
    (edit_chat_invite_link
      (testClient [] [{ id := 5, first_name := "u" }, { id := 6, first_name := "v" }])
      (.int 1) "L" none .omitted none none).1 =
      (testClient [] [{ id := 5, first_name := "u" }, { id := 6, first_name := "v" }]).chat_invite_link_of
        { link := "LINK2" }
        (usersDict [{ id := 5, first_name := "u" }, { id := 6, first_name := "v" }]) :=
  edit_invite_users_mapping
    (testClient [] [{ id := 5, first_name := "u" }, { id := 6, first_name := "v" }])
    (.int 1) "L" none .omitted none none { id := 7 }
    { invite := { link := "LINK2" },
      users := [{ id := 5, first_name := "u" }, { id := 6, first_name := "v" }] }
    rfl rfl (by decide)

/-- C8: the adapters recover no failures locally: a raised error from peer
    resolution, the transport invocation, or parsing is returned unchanged
    as the call's outcome, and a call that does not fail returns the fully
    parsed typed object or sequence — never a partial result. -/
theorem adapter_failures_propagate {ε : Type} (c : Client ε) (cid : ChatId)
    (lang ilink txt : String) (name : Option String) (ed : ExpireArg)
    (ml : Option Int) (cjr : Option Bool) (mids : IntOrList)
    (pm : Option ParseMode) (ents : Option (List MessageEntity)) (e : ε)
    (p : Peer) (rE : Raw.ExportedChatInvite) (rT rX : Raw.TranslateResult)
    (msg : String) (pents : Option (List MessageEntity)) (v : ChatInviteLink)
    (s sx : SingleOrList TranslatedText) :
    (c.resolve_peer cid = .error e →
      (edit_chat_invite_link c cid ilink name ed ml cjr).1 = .error e) ∧
    (c.resolve_peer cid = .ok p →
      c.invoke_edit_exported_chat_invite
        (buildEditExportedChatInvite p ilink name ed ml cjr) = .error e →
      (edit_chat_invite_link c cid ilink name ed ml cjr).1 = .error e) ∧
    (c.resolve_peer cid = .ok p →
      c.invoke_edit_exported_chat_invite
        (buildEditExportedChatInvite p ilink name ed ml cjr) = .ok rE →
      c.chat_invite_link_of rE.invite (usersDict rE.users) = .error e →
      (edit_chat_invite_link c cid ilink name ed ml cjr).1 = .error e) ∧
    (c.resolve_peer cid = .ok p →
      c.invoke_edit_exported_chat_invite
        (buildEditExportedChatInvite p ilink name ed ml cjr) = .ok rE →
      c.chat_invite_link_of rE.invite (usersDict rE.users) = .ok v →
      (edit_chat_invite_link c cid ilink name ed ml cjr).1 = .ok v) ∧
    (c.resolve_peer cid = .error e →
      (translate_message_text c lang cid mids).1 = .error e) ∧
    (c.resolve_peer cid = .ok p →
      c.invoke_translate_text
        (buildTranslateByIds lang p (normalizeMessageIds mids)) = .error e →
      (translate_message_text c lang cid mids).1 = .error e) ∧
    (c.resolve_peer cid = .ok p →
      c.invoke_translate_text
        (buildTranslateByIds lang p (normalizeMessageIds mids)) = .ok rT →
      parseTranslateResults c.translated_text_of rT.result = .error e →
      (translate_message_text c lang cid mids).1 = .error e) ∧
    (c.resolve_peer cid = .ok p →
      c.invoke_translate_text
        (buildTranslateByIds lang p (normalizeMessageIds mids)) = .ok rT →
      parseTranslateResults c.translated_text_of rT.result = .ok s →
      (translate_message_text c lang cid mids).1 = .ok s) ∧
    (c.parse_text_entities txt pm ents = .error e →
      (translate_text c lang txt pm ents).1 = .error e) ∧
    (c.parse_text_entities txt pm ents = .ok (msg, pents) →
      c.invoke_translate_text (buildTranslateByText lang msg pents) = .error e →
      (translate_text c lang txt pm ents).1 = .error e) ∧
    (c.parse_text_entities txt pm ents = .ok (msg, pents) →
      c.invoke_translate_text (buildTranslateByText lang msg pents) = .ok rX →
      parseTranslateResults c.translated_text_of rX.result = .error e →
      (translate_text c lang txt pm ents).1 = .error e) ∧
    (c.parse_text_entities txt pm ents = .ok (msg, pents) →
      c.invoke_translate_text (buildTranslateByText lang msg pents) = .ok rX →
      parseTranslateResults c.translated_text_of rX.result = .ok sx →
      (translate_text c lang txt pm ents).1 = .ok sx) := by
  refine ⟨fun h1 => ?_, fun h1 h2 => ?_, fun h1 h2 h3 => ?_, fun h1 h2 h3 => ?_,
    fun h1 => ?_, fun h1 h2 => ?_, fun h1 h2 h3 => ?_, fun h1 h2 h3 => ?_,
    fun h1 => ?_, fun h1 h2 => ?_, fun h1 h2 h3 => ?_, fun h1 h2 h3 => ?_⟩
  · simp [edit_chat_invite_link, h1]
  · simp [edit_chat_invite_link, h1, h2]
  · simp [edit_chat_invite_link, h1, h2, h3]
  · simp [edit_chat_invite_link, h1, h2, h3]
  · simp [translate_message_text, h1]
  · simp [translate_message_text, h1, h2]
  · simp [translate_message_text, h1, h2, h3]
  · simp [translate_message_text, h1, h2, h3]
  · simp [translate_text, h1]
  · simp [translate_text, h1, h2]
  · simp [translate_text, h1, h2, h3]
  · simp [translate_text, h1, h2, h3]

/-- C8 witness: on a client whose peer resolution raises, the edit call
    returns exactly that error. -/
theorem adapter_failures_propagate_witness :
    (edit_chat_invite_link failClient (.int 1) "L" none .omitted none none).1 =
      .error "PEER_ID_INVALID" :=
  (adapter_failures_propagate failClient (.int 1) "en" "L" "hi" none .omitted
    none none (.int 5) none none "PEER_ID_INVALID" { id := 7 }
    { invite := { link := "L" }, users := [] } { result := [] } { result := [] }
    "hi" none { invite_link := "L" } (.list []) (.list [])).1 rfl

/-- C9: per invocation each adapter performs exactly one peer resolution
    followed by exactly one transport invocation (none for the text-only
    translation, which resolves no peer and still invokes exactly once):
    the event traces are exactly these sequences. -/
theorem adapter_one_resolve_one_invoke {ε : Type} (c : Client ε)
    (lang ilink txt : String) (cid cid2 : ChatId) (mids : IntOrList)
    (name : Option String) (ed : ExpireArg) (ml : Option Int)
    (cjr : Option Bool) (pm : Option ParseMode)
    (ents : Option (List MessageEntity)) (p q : Peer) (msg : String)
    (pents : Option (List MessageEntity))
    (hres : c.resolve_peer cid = .ok p)
    (hres2 : c.resolve_peer cid2 = .ok q)
    (hpe : c.parse_text_entities txt pm ents = .ok (msg, pents)) :
    (translate_message_text c lang cid mids).2 =
      [.resolvedPeer cid, .invoked (.translateText
        (buildTranslateByIds lang p (normalizeMessageIds mids)))] ∧
    (edit_chat_invite_link c cid2 ilink name ed ml cjr).2 =
      [.resolvedPeer cid2, .invoked (.editExportedChatInvite
        (buildEditExportedChatInvite q ilink name ed ml cjr))] ∧
    (translate_text c lang txt pm ents).2 =
      [.invoked (.translateText (buildTranslateByText lang msg pents))] ∧
    resolvedPeers ((translate_message_text c lang cid mids).2) = [cid] ∧
    resolvedPeers ((translate_text c lang txt pm ents).2) = [] := by
  have h1 : (translate_message_text c lang cid mids).2 =
      [.resolvedPeer cid, .invoked (.translateText
        (buildTranslateByIds lang p (normalizeMessageIds mids)))] := by
    cases h : c.invoke_translate_text
        (buildTranslateByIds lang p (normalizeMessageIds mids)) with
    | error e => simp [translate_message_text, hres, h]
    | ok r => simp [translate_message_text, hres, h]
  have h3 : (translate_text c lang txt pm ents).2 =
      [.invoked (.translateText (buildTranslateByText lang msg pents))] := by
    cases h : c.invoke_translate_text (buildTranslateByText lang msg pents) with
    | error e => simp [translate_text, hpe, h]
    | ok r => simp [translate_text, hpe, h]
  refine ⟨h1, ?_, h3, by simp [h1, resolvedPeers], by simp [h3, resolvedPeers]⟩
  cases h : c.invoke_edit_exported_chat_invite
      (buildEditExportedChatInvite q ilink name ed ml cjr) with
  | error e => simp [edit_chat_invite_link, hres2, h]
  | ok r => simp [edit_chat_invite_link, hres2, h]

/-- C9 witness: on a concrete client all three adapter calls produce
    exactly the stated one-resolution-then-one-invocation traces. -/
theorem adapter_one_resolve_one_invoke_witness :
    (translate_message_text (testClient [] []) "en" (.int 1) (.int 5)).2 =
      [.resolvedPeer (.int 1), .invoked (.translateText
        (buildTranslateByIds "en" { id := 7 } (normalizeMessageIds (.int 5))))] ∧
    (edit_chat_invite_link (testClient [] []) (.int 2) "L" none .omitted none none).2 =
      [.resolvedPeer (.int 2), .invoked (.editExportedChatInvite
        (buildEditExportedChatInvite { id := 7 } "L" none .omitted none none))] ∧
    (translate_text (testClient [] []) "en" "hi" none none).2 =
      [.invoked (.translateText (buildTranslateByText "en" "hi" none))] ∧
    resolvedPeers ((translate_message_text (testClient [] []) "en" (.int 1) (.int 5)).2) =
      [.int 1] ∧
    resolvedPeers ((translate_text (testClient [] []) "en" "hi" none none).2) = [] :=
  adapter_one_resolve_one_invoke (testClient [] []) "en" "L" "hi" (.int 1)
    (.int 2) (.int 5) none .omitted none none none none { id := 7 } { id := 7 }
    "hi" none rfl rfl rfl

/-- C10: `translate_text` always sends a present entities list on the
    wire: the request's single `TextWithEntities` carries
    `entities or []`, which is never the null/absent representation and is
    the empty list whenever the parsed entities are `None` or empty, while
    a non-empty parsed list is forwarded unchanged. -/
theorem translate_text_entities_never_null {ε : Type} (c : Client ε)
    (lang txt : String) (pm : Option ParseMode)
    (ents : Option (List MessageEntity)) (msg : String)
    (pents : Option (List MessageEntity))
    (hpe : c.parse_text_entities txt pm ents = .ok (msg, pents)) :
    sentRawCalls ((translate_text c lang txt pm ents).2) =
      [.translateText (buildTranslateByText lang msg pents)] ∧
    (buildTranslateByText lang msg pents).text =
      some [{ text := msg, entities := some (pyOrElse pents []) }] ∧
    some (pyOrElse pents []) ≠ (none : Option (List MessageEntity)) ∧
    (pents = none → pyOrElse pents [] = []) ∧
    (pents = some [] → pyOrElse pents [] = []) ∧
    (∀ l : List MessageEntity, l ≠ [] → pyOrElse (some l) [] = l) := by
  refine ⟨?_, rfl, by simp, ?_, ?_, ?_⟩
  · cases h : c.invoke_translate_text (buildTranslateByText lang msg pents) with
    | error e => simp [translate_text, hpe, h, sentRawCalls]
    | ok r => simp [translate_text, hpe, h, sentRawCalls]
  · intro h; subst h; rfl
  · intro h; subst h; rfl
  · intro l hl
    cases l with
    | nil => exact absurd rfl hl
    | cons a tl => rfl

/-- C10 witness: with no caller entities the concrete request carries the
    empty entity list, not a null field. -/
theorem translate_text_entities_never_null_witness :
    sentRawCalls ((translate_text (testClient [] []) "en" "hi" none none).2) =
      [.translateText (buildTranslateByText "en" "hi" none)] ∧
    (buildTranslateByText "en" "hi" none).text =
      some [{ text := "hi", entities := some (pyOrElse none []) }] ∧
    some (pyOrElse none []) ≠ (none : Option (List MessageEntity)) ∧
    ((none : Option (List MessageEntity)) = none → pyOrElse none [] = []) ∧
    ((none : Option (List MessageEntity)) = some [] → pyOrElse none [] = []) ∧
    (∀ l : List MessageEntity, l ≠ [] → pyOrElse (some l) [] = l) :=
  translate_text_entities_never_null (testClient [] []) "en" "hi" none none
    "hi" none rfl

end Pyrogram
